import Mathlib

/-!
# Verification of the event/booking persistence-layer logic

Shallow embedding of the data-normalization and validation logic of the
event-listing application: the slug generator, date normalizer, time
normalizer, event pre-save validator and booking pre-save validator, together
with proofs of the specified properties.

The embedding follows the TypeScript source:
* `generateSlug`, `normalizeDate`, `normalizeTime`, `eventPreSave` from the
  event model file;
* `EMAIL_REGEX` matching and `bookingPreSave` from `booking.model.ts`.
-/

/-- Error taxonomy of the validation layer (spec section 7).  `missingField`
carries the offending field name, mirroring the thrown message
`Field "<name>" is required` / `Field "<name>" must be a non-empty array`. -/
inductive SaveError where
  | missingField (name : String)
  | invalidDate
  | invalidTime
  | invalidEmail
  | danglingReference
  | duplicateSlug
deriving DecidableEq, Repr

/-- The JavaScript whitespace class (`\s`, also the set stripped by
`String.prototype.trim`): ASCII whitespace plus the Unicode space
separators, NEL is excluded, ZWNBSP included. -/
def jsWhitespace (c : Char) : Bool :=
  c ∈ [' ', '\t', '\n', '\r', '\x0b', '\x0c', '\u00A0', '\u1680',
       '\u2000', '\u2001', '\u2002', '\u2003', '\u2004', '\u2005', '\u2006',
       '\u2007', '\u2008', '\u2009', '\u200A', '\u2028', '\u2029', '\u202F',
       '\u205F', '\u3000', '\uFEFF']

/-- `String.prototype.trim`: drop leading and trailing whitespace. -/
def jsTrim (l : List Char) : List Char :=
  ((l.dropWhile jsWhitespace).reverse.dropWhile jsWhitespace).reverse

/-- Numeric value of a decimal digit character. -/
def dval (c : Char) : Nat := c.toNat - 48

/-- A meridiem suffix accepted by the time regex (`AM`/`PM`/`am`/`pm`). -/
inductive Meridiem where
  | am
  | pm
deriving DecidableEq, Repr

/-- After the hour digits of `/^(\d{1,2})(?::?(\d{2}))\s*(AM|PM|am|pm)?$/`:
consume the optional `:`, then exactly two minute digits, then greedily the
whitespace run, then the optional meridiem suffix and the end of input.
Each of these steps is deterministic for this pattern (the optional `:` must
be taken iff present, since a digit must follow; the whitespace run must be
maximal, since neither meridiem alternative starts with whitespace). -/
def parseTail (hour : Nat) (l : List Char) : Option (Nat × Nat × Option Meridiem) :=
  let l1 := match l with
    | ':' :: t => t
    | _ => l
  match l1 with
  | a :: b :: rest =>
    if a.isDigit && b.isDigit then
      let minute := dval a * 10 + dval b
      match rest.dropWhile jsWhitespace with
      | [] => some (hour, minute, none)
      | ['A', 'M'] => some (hour, minute, some .am)
      | ['a', 'm'] => some (hour, minute, some .am)
      | ['P', 'M'] => some (hour, minute, some .pm)
      | ['p', 'm'] => some (hour, minute, some .pm)
      | _ => none
    else none
  | _ => none

/-- Anchored match of `/^(\d{1,2})(?::?(\d{2}))\s*(AM|PM|am|pm)?$/` against a
character list, returning the captured (hour value, minute value, meridiem).
The hour group is greedy: two digits are tried first and the engine
backtracks to one digit if the rest of the pattern fails. -/
def parseTime : List Char → Option (Nat × Nat × Option Meridiem)
  | [] => none
  | [c] => if c.isDigit then parseTail (dval c) [] else none
  | c1 :: c2 :: rest =>
    if c1.isDigit then
      if c2.isDigit then
        match parseTail (dval c1 * 10 + dval c2) rest with
        | some r => some r
        | none => parseTail (dval c1) (c2 :: rest)
      else parseTail (dval c1) (c2 :: rest)
    else none

/-- Fuel-driven decimal expansion; `fuel ≥ n + 1` always suffices since the
argument strictly shrinks under division by ten. -/
def digitsAux : Nat → Nat → List Char
  | 0, _ => []
  | fuel + 1, n =>
    if n < 10 then [Nat.digitChar n]
    else digitsAux fuel (n / 10) ++ [Nat.digitChar (n % 10)]

/-- Decimal digit expansion of a natural number (`Number.prototype.toString`
for a nonnegative integer), most significant digit first. -/
def natDigits (n : Nat) : List Char := digitsAux (n + 1) n

/-- `String.prototype.padStart(k, '0')` applied to the decimal expansion. -/
def padZero (k n : Nat) : List Char :=
  List.replicate (k - (natDigits n).length) '0' ++ natDigits n

/-- `normalizeTime` from the event model: trim the input, match it against
`/^(\d{1,2})(?::?(\d{2}))\s*(AM|PM|am|pm)?$/`, reject when the raw parsed
hour is outside 0–23 or the minute outside 0–59, then — only if a meridiem
was supplied — reinterpret the hour as 12-hour (12 AM → 0, 12 PM → 12,
otherwise PM adds 12), and print both components padded to two digits. -/
def normalizeTime (s : String) : Except SaveError String :=
  match parseTime (jsTrim s.data) with
  | none => .error .invalidTime
  | some (hour, minute, meridiem) =>
    if 23 < hour || 59 < minute then .error .invalidTime
    else
      let hour' := match meridiem with
        | none => hour
        | some .am => if hour = 12 then 0 else hour
        | some .pm => if hour = 12 then 12 else hour + 12
      .ok (String.mk (padZero 2 hour' ++ ':' :: padZero 2 minute))

/-- A string is a valid 24-hour clock string when it is five characters
`HH:mm` with `HH` between 00 and 23 and `mm` between 00 and 59. -/
def isValid24h (s : String) : Bool :=
  match s.data with
  | [h1, h2, ':', m1, m2] =>
    h1.isDigit && h2.isDigit && m1.isDigit && m2.isDigit &&
      (dval h1 * 10 + dval h2 < 24) && (dval m1 * 10 + dval m2 < 60)
  | _ => false

/-! ## Auxiliary lemmas about decimal printing -/

theorem digitChar_spec (n : Nat) (h : n ≤ 9) :
    (Nat.digitChar n).isDigit = true ∧ dval (Nat.digitChar n) = n := by
  interval_cases n <;> exact ⟨rfl, rfl⟩

theorem digitsAux_lt10 (fuel m : Nat) (hf : 0 < fuel) (hm : m < 10) :
    digitsAux fuel m = [Nat.digitChar m] := by
  cases fuel with
  | zero => omega
  | succ f => simp [digitsAux, hm]

theorem natDigits_lt10 (n : Nat) (h : n < 10) : natDigits n = [Nat.digitChar n] :=
  digitsAux_lt10 _ _ (by omega) h

theorem natDigits_two (n : Nat) (h1 : 10 ≤ n) (h2 : n ≤ 99) :
    natDigits n = [Nat.digitChar (n / 10), Nat.digitChar (n % 10)] := by
  unfold natDigits
  rw [show digitsAux (n + 1) n
      = if n < 10 then [Nat.digitChar n]
        else digitsAux n (n / 10) ++ [Nat.digitChar (n % 10)] from rfl]
  rw [if_neg (by omega)]
  rw [digitsAux_lt10 n (n / 10) (by omega) (by omega)]
  rfl

theorem padZero2_spec (n : Nat) (h : n ≤ 99) :
    ∃ a b, padZero 2 n = [a, b] ∧ a.isDigit = true ∧ b.isDigit = true ∧
      dval a * 10 + dval b = n := by
  by_cases h10 : n < 10
  · refine ⟨'0', Nat.digitChar n, ?_, rfl, (digitChar_spec n (by omega)).1, ?_⟩
    · rw [padZero, natDigits_lt10 n h10]
      rfl
    · have := (digitChar_spec n (by omega)).2
      simp [dval] at this ⊢
      omega
  · refine ⟨Nat.digitChar (n / 10), Nat.digitChar (n % 10), ?_, ?_, ?_, ?_⟩
    · rw [padZero, natDigits_two n (by omega) h]
      rfl
    · exact (digitChar_spec (n / 10) (by omega)).1
    · exact (digitChar_spec (n % 10) (by omega)).1
    · have ha := (digitChar_spec (n / 10) (by omega)).2
      have hb := (digitChar_spec (n % 10) (by omega)).2
      omega

theorem isValid24h_build (h m : Nat) (hh : h ≤ 23) (hm : m ≤ 59) :
    isValid24h (String.mk (padZero 2 h ++ ':' :: padZero 2 m)) = true := by
  obtain ⟨a, b, hab, ha, hb, hv⟩ := padZero2_spec h (by omega)
  obtain ⟨c, d, hcd, hc, hd, hw⟩ := padZero2_spec m (by omega)
  rw [hab, hcd]
  show isValid24h ⟨[a, b, ':', c, d]⟩ = true
  simp only [isValid24h]
  simp [ha, hb, hc, hd]
  omega

/-! ## Claims about the Time Normalizer -/

/-- C1 (counterexample): the input `"13:00 PM"` is accepted by the Time
Normalizer, yet the returned value `"25:00"` is not a valid 24-hour clock
string — its hour field is 25. -/
theorem claim_C1_counterexample :
    normalizeTime "13:00 PM" = .ok "25:00" ∧ isValid24h "25:00" = false :=
  ⟨rfl, rfl⟩

/-- C1 (amended): for every time string the Time Normalizer accepts, if the
parse does not combine a `PM` suffix with a raw hour of 13–23, then the
returned value is a valid 24-hour `HH:mm` string with hour 00–23 and minute
00–59.  (With a `PM` suffix and raw hour 13–23 the code returns hour
25–35, as the counterexample shows.) -/
theorem claim_C1_amended (s : String) (h m : Nat) (mer : Option Meridiem)
    (hp : parseTime (jsTrim s.data) = some (h, m, mer))
    (hh : h ≤ 23) (hm : m ≤ 59) (hpm : mer = some .pm → h ≤ 12) :
    ∃ out, normalizeTime s = .ok out ∧ isValid24h out = true := by
  have hcond : (decide (23 < h) || decide (59 < m)) = false := by
    simp only [Bool.or_eq_false_iff, decide_eq_false_iff_not]
    omega
  simp only [normalizeTime, hp, hcond, Bool.false_eq_true, if_false]
  refine ⟨_, rfl, ?_⟩
  apply isValid24h_build _ _ ?_ hm
  cases mer with
  | none => exact hh
  | some md =>
    cases md with
    | am => dsimp only; split <;> omega
    | pm =>
      have := hpm rfl
      dsimp only; split <;> omega

/-- C1 (witness): the accepted input `"2:30 PM"` satisfies the amended
claim's hypotheses and yields a valid 24-hour string. -/
theorem claim_C1_witness :
    ∃ out, normalizeTime "2:30 PM" = .ok out ∧ isValid24h out = true :=
  claim_C1_amended "2:30 PM" 2 30 (some .pm) rfl (by decide) (by decide)
    (fun _ => by decide)

/-- C2 (counterexample): `"00:00 AM"` — the string `"00:00"` followed by a
meridiem suffix — is matched by the pattern (hour group `00`, minute group
`00`, suffix `AM`) and is accepted, returning `"00:00"`, contrary to the
claim that every such input fails with `InvalidTime`. -/
theorem claim_C2_counterexample :
    normalizeTime "00:00 AM" = .ok "00:00" :=
  rfl

/-- C2 (amended): the Time Normalizer accepts `"00:00"` followed by any
meridiem suffix, with or without a space: an `AM`/`am` suffix yields
`"00:00"` and a `PM`/`pm` suffix yields `"12:00"` (hour 0 is not the
special-cased hour 12, so `pm` adds 12). -/
theorem claim_C2_amended :
    normalizeTime "00:00 AM" = .ok "00:00" ∧
    normalizeTime "00:00AM" = .ok "00:00" ∧
    normalizeTime "00:00 am" = .ok "00:00" ∧
    normalizeTime "00:00am" = .ok "00:00" ∧
    normalizeTime "00:00 PM" = .ok "12:00" ∧
    normalizeTime "00:00PM" = .ok "12:00" ∧
    normalizeTime "00:00 pm" = .ok "12:00" ∧
    normalizeTime "00:00pm" = .ok "12:00" :=
  ⟨rfl, rfl, rfl, rfl, rfl, rfl, rfl, rfl⟩

/-- C3: the five specified behaviours of the Time Normalizer: `"2:30 PM"`
normalizes to `"14:30"`, `"14:30"` to `"14:30"`, `"12:00 AM"` to `"00:00"`,
`"12:00 PM"` to `"12:00"`, and `"25:00"` fails with `InvalidTime`. -/
theorem claim_C3 :
    normalizeTime "2:30 PM" = .ok "14:30" ∧
    normalizeTime "14:30" = .ok "14:30" ∧
    normalizeTime "12:00 AM" = .ok "00:00" ∧
    normalizeTime "12:00 PM" = .ok "12:00" ∧
    normalizeTime "25:00" = .error .invalidTime :=
  ⟨rfl, rfl, rfl, rfl, rfl⟩

/-! ## Slug generator -/

/-- The character class `[a-z0-9]` of the slug regex. -/
def isAlnumLower (c : Char) : Bool :=
  ('a' ≤ c && c ≤ 'z') || ('0' ≤ c && c ≤ '9')

/-- One pass of `.replace(/[^a-z0-9]+/g, '-')`: each maximal run of
characters outside `[a-z0-9]` is replaced by a single `'-'`.  The boolean
flag records whether the scan is currently inside such a run (so that only
the first character of the run emits the dash). -/
def collapseAux : Bool → List Char → List Char
  | _, [] => []
  | inRun, c :: cs =>
    if isAlnumLower c then c :: collapseAux false cs
    else if inRun then collapseAux true cs
    else '-' :: collapseAux true cs

/-- `.replace(/[^a-z0-9]+/g, '-')` on a character list. -/
def collapseNonAlnum (l : List Char) : List Char := collapseAux false l

/-- Test for the dash character. -/
def isDash (c : Char) : Bool := c == '-'

/-- `.replace(/^-+|-+$/g, '')`: strip the leading run and the trailing run
of dashes. -/
def stripEdgeDashes (l : List Char) : List Char :=
  ((l.dropWhile isDash).reverse.dropWhile isDash).reverse

/-- `generateSlug` from the event model:
`title.toLowerCase().trim().replace(/[^a-z0-9]+/g, '-').replace(/^-+|-+$/g, '')`.
Lowercasing is modelled on the ASCII range (`Char.toLower`); the claimed
output-shape properties are insensitive to the case mapping used for
non-ASCII characters, since the replace step keeps only `[a-z0-9]`. -/
def generateSlugList (l : List Char) : List Char :=
  stripEdgeDashes (collapseNonAlnum (jsTrim (l.map Char.toLower)))

def generateSlug (title : String) : String :=
  String.mk (generateSlugList title.data)

/-- Adjacent characters are not both dashes. -/
def DashFree (a b : Char) : Prop := ¬(a = '-' ∧ b = '-')

theorem mem_collapseAux (l : List Char) :
    ∀ b c, c ∈ collapseAux b l → isAlnumLower c = true ∨ c = '-' := by
  induction l with
  | nil => intro b c h; simp [collapseAux] at h
  | cons x xs ih =>
    intro b c h
    by_cases hx : isAlnumLower x = true
    · rw [collapseAux, if_pos hx] at h
      rcases List.mem_cons.1 h with rfl | h
      · exact Or.inl hx
      · exact ih false c h
    · rw [collapseAux, if_neg hx] at h
      cases b with
      | true => exact ih true c (by simpa using h)
      | false =>
        rcases List.mem_cons.1 (by simpa using h) with rfl | h'
        · exact Or.inr rfl
        · exact ih true c h'

theorem head_collapseAux_true (l : List Char) :
    ∀ c, (collapseAux true l).head? = some c → isAlnumLower c = true := by
  induction l with
  | nil => intro c h; simp [collapseAux] at h
  | cons x xs ih =>
    intro c h
    by_cases hx : isAlnumLower x = true
    · simp only [collapseAux, if_pos hx, List.head?_cons, Option.some.injEq] at h
      rw [← h]
      exact hx
    · simp only [collapseAux, if_neg hx, if_true] at h
      exact ih c h

theorem chain'_collapseAux (l : List Char) :
    ∀ b, List.Chain' DashFree (collapseAux b l) := by
  induction l with
  | nil => intro b; simp [collapseAux]
  | cons x xs ih =>
    intro b
    by_cases hx : isAlnumLower x = true
    · rw [collapseAux, if_pos hx]
      rw [List.chain'_cons']
      refine ⟨?_, ih false⟩
      intro y _
      intro ⟨hx', _⟩
      rw [hx'] at hx
      simp [isAlnumLower] at hx
    · rw [collapseAux, if_neg hx]
      cases b with
      | true => simpa using ih true
      | false =>
        simp only [if_neg, Bool.false_eq_true, if_false]
        rw [List.chain'_cons']
        refine ⟨?_, ih true⟩
        intro y hy
        intro ⟨_, hy'⟩
        have := head_collapseAux_true xs y hy
        rw [hy'] at this
        simp [isAlnumLower] at this

theorem flip_dashFree : flip DashFree = DashFree := by
  funext a b
  simp [flip, DashFree, And.comm]

theorem chain'_rev {l : List Char} (h : List.Chain' DashFree l) :
    List.Chain' DashFree l.reverse := by
  rw [List.chain'_reverse, flip_dashFree]
  exact h

theorem chain'_stripEdgeDashes {m : List Char} (hm : List.Chain' DashFree m) :
    List.Chain' DashFree (stripEdgeDashes m) := by
  have h1 : List.Chain' DashFree (m.dropWhile isDash) :=
    hm.suffix (List.dropWhile_suffix _)
  have h2 := chain'_rev h1
  have h3 : List.Chain' DashFree ((m.dropWhile isDash).reverse.dropWhile isDash) :=
    h2.suffix (List.dropWhile_suffix _)
  exact chain'_rev h3

theorem mem_stripEdgeDashes {m : List Char} {c : Char} (h : c ∈ stripEdgeDashes m) :
    c ∈ m := by
  rw [stripEdgeDashes, List.mem_reverse] at h
  have h1 := List.dropWhile_subset (l := (m.dropWhile isDash).reverse) isDash h
  rw [List.mem_reverse] at h1
  exact List.dropWhile_subset isDash h1

theorem head?_stripEdgeDashes {m : List Char} {c : Char}
    (h : (stripEdgeDashes m).head? = some c) : isDash c = false := by
  rw [stripEdgeDashes, List.head?_reverse] at h
  obtain ⟨t, ht⟩ := List.dropWhile_suffix (l := (m.dropWhile isDash).reverse) isDash
  have h2 : (t ++ (m.dropWhile isDash).reverse.dropWhile isDash).getLast? = some c := by
    rw [List.getLast?_append, h]
    rfl
  rw [ht, List.getLast?_reverse] at h2
  have hd := List.head?_dropWhile_not isDash m
  rw [h2] at hd
  exact hd

theorem getLast?_stripEdgeDashes {m : List Char} {c : Char}
    (h : (stripEdgeDashes m).getLast? = some c) : isDash c = false := by
  rw [stripEdgeDashes, List.getLast?_reverse] at h
  have hd := List.head?_dropWhile_not isDash ((m.dropWhile isDash).reverse)
  rw [h] at hd
  exact hd

/-! ## Claim about the Slug Generator -/

/-- C4: for every title, the slug contains only lowercase ASCII letters,
digits and dashes, has no leading or trailing dash, has no two consecutive
dashes, and the generator is total with the empty title yielding the empty
string (totality is witnessed by `generateSlug` being a Lean function into
`String` rather than `Except`). -/
theorem claim_C4 (title : String) :
    ((generateSlug title).data.all (fun c => isAlnumLower c || isDash c)) = true ∧
    ((generateSlug title).data.head? == some '-') = false ∧
    ((generateSlug title).data.getLast? == some '-') = false ∧
    List.Chain' DashFree (generateSlug title).data ∧
    generateSlug "" = "" := by
  refine ⟨?_, ?_, ?_, ?_, rfl⟩
  · rw [List.all_eq_true]
    intro c hc
    have h1 : c ∈ collapseNonAlnum (jsTrim (title.data.map Char.toLower)) :=
      mem_stripEdgeDashes hc
    rcases mem_collapseAux _ false c h1 with h | h
    · simp [h]
    · simp [h, isDash]
  · rw [beq_eq_false_iff_ne]
    intro h
    have := head?_stripEdgeDashes h
    simp [isDash] at this
  · rw [beq_eq_false_iff_ne]
    intro h
    have := getLast?_stripEdgeDashes h
    simp [isDash] at this
  · exact chain'_stripEdgeDashes (chain'_collapseAux _ false)

/-! ## Date normalizer

The source calls `new Date(dateStr)` and, when the result is a valid time
value, returns `date.toISOString().split('T')[0]`.  The engine behaviour is
modelled as follows:

* `jsDateParse` covers the date-only forms of the ECMAScript Date Time
  String Format (`YYYY`, `YYYY-MM`, `YYYY-MM-DD`, four-digit year,
  interpreted as UTC midnight, rejecting out-of-range components); inputs
  outside this grammar are treated as unparseable (the engine-specific
  legacy fallback for non-conforming strings is outside the model);
* the time value is the count of milliseconds since the epoch;
* `toISODate` is the date portion of `toISOString`, computed from the time
  value with the standard era-based proleptic-Gregorian conversion (the
  same mathematical function as the specification's `YearFromTime` /
  `MonthFromTime` / `DateFromTime`).
-/

/-- Gregorian leap-year predicate. -/
def isLeapYear (y : Nat) : Bool :=
  y % 4 == 0 && (y % 100 != 0 || y % 400 == 0)

/-- Number of days in month `m` (1–12) of year `y`. -/
def daysInMonth (y m : Nat) : Nat :=
  if m = 2 then (if isLeapYear y then 29 else 28)
  else if m = 4 ∨ m = 6 ∨ m = 9 ∨ m = 11 then 30
  else 31

/-- Day count of the civil date `y-m-d`, shifted so that day 0 is
`-0400-03-01`: this is `days_from_civil(y,m,d) + 719468 + 146097`, kept in
`Nat` (all dates with `y ≥ 0` are nonnegative under this shift). -/
def daysFromCivilShifted (y m d : Nat) : Nat :=
  let y' := y + 400 - (if m ≤ 2 then 1 else 0)
  let era := y' / 400
  let yoe := y' % 400
  let mp := if 2 < m then m - 3 else m + 9
  let doy := (153 * mp + 2) / 5 + (d - 1)
  let doe := yoe * 365 + yoe / 4 - yoe / 100 + doy
  era * 146097 + doe

/-- Millisecond time value of UTC midnight of `y-m-d` (what `new Date`
yields on a date-only ISO string): `86400000` times the signed day number
since `1970-01-01`. -/
def dateMs (y m d : Nat) : Int :=
  86400000 * ((daysFromCivilShifted y m d : Int) - 146097 - 719468)

/-- Leap-day adjustment used when recovering the year-of-era from the
day-of-era: `doe` minus one day per past leap year of the era. -/
def fAdj (x : Nat) : Nat := x - x / 1460 + x / 36524 - x / 146096

/-- Inverse civil-date computation on the shifted day count. -/
def civilOfShifted (g : Nat) : Nat × Nat × Nat :=
  let era := g / 146097
  let doe := g % 146097
  let yoe := fAdj doe / 365
  let doy := doe - (yoe * 365 + yoe / 4 - yoe / 100)
  let mp := (5 * doy + 2) / 153
  let d := doy - (153 * mp + 2) / 5 + 1
  let m := if mp < 10 then mp + 3 else mp - 9
  let y := era * 400 + yoe + (if m ≤ 2 then 1 else 0) - 400
  (y, m, d)

/-- `YYYY-MM-DD` rendering with zero padding (the date portion of
`toISOString` for years 0–9999). -/
def fmtDate (y m d : Nat) : String :=
  String.mk (padZero 4 y ++ '-' :: padZero 2 m ++ '-' :: padZero 2 d)

/-- Date portion of `toISOString()` on a time value: floor-divide by the
day length in milliseconds and convert the day number to a civil date. -/
def toISODate (ms : Int) : String :=
  let (y, m, d) := civilOfShifted ((ms.fdiv 86400000) + 719468 + 146097).toNat
  fmtDate y m d

/-- `new Date(dateStr)` on the date-only ISO forms, as an optional time
value (`none` is an invalid date, i.e. `getTime()` is `NaN`). -/
def jsDateParse (s : String) : Option Int :=
  match s.data with
  | [a, b, c, d] =>
    if a.isDigit && b.isDigit && c.isDigit && d.isDigit then
      some (dateMs (dval a * 1000 + dval b * 100 + dval c * 10 + dval d) 1 1)
    else none
  | [a, b, c, d, '-', e, f] =>
    let y := dval a * 1000 + dval b * 100 + dval c * 10 + dval d
    let m := dval e * 10 + dval f
    if a.isDigit && b.isDigit && c.isDigit && d.isDigit && e.isDigit && f.isDigit
        && 1 ≤ m && m ≤ 12 then
      some (dateMs y m 1)
    else none
  | [a, b, c, d, '-', e, f, '-', g, i] =>
    let y := dval a * 1000 + dval b * 100 + dval c * 10 + dval d
    let m := dval e * 10 + dval f
    let dd := dval g * 10 + dval i
    if a.isDigit && b.isDigit && c.isDigit && d.isDigit && e.isDigit && f.isDigit
        && g.isDigit && i.isDigit && 1 ≤ m && m ≤ 12 && 1 ≤ dd && dd ≤ daysInMonth y m then
      some (dateMs y m dd)
    else none
  | _ => none

/-- `normalizeDate` from the event model: parse with `new Date`, fail with
`InvalidDate` when the time value is `NaN`, otherwise return the date
portion of `toISOString()`. -/
def normalizeDate (s : String) : Except SaveError String :=
  match jsDateParse s with
  | none => .error .invalidDate
  | some ms => .ok (toISODate ms)

/-! ## Round-trip arithmetic for the civil-date conversion -/

theorem mono1460 {a b : Nat} (h : a ≤ b) : a - a / 1460 ≤ b - b / 1460 := by
  omega

theorem mono4 {a b : Nat} (h : a ≤ b) : a - a / 4 ≤ b - b / 4 := by
  omega

theorem div_sub_div_mono {a b : Nat} (h : a ≤ b) :
    a / 36524 - a / 146096 ≤ b / 36524 - b / 146096 := by
  have h1 : a / 36524 / 4 = a / 146096 := by
    rw [Nat.div_div_eq_div_mul]
  have h2 : b / 36524 / 4 = b / 146096 := by
    rw [Nat.div_div_eq_div_mul]
  have h3 : a / 36524 ≤ b / 36524 := Nat.div_le_div_right h
  have h4 := mono4 h3
  omega

theorem fAdj_mono {a b : Nat} (h : a ≤ b) : fAdj a ≤ fAdj b := by
  have h1 := mono1460 h
  have h2 := div_sub_div_mono h
  have h3 : a / 146096 ≤ a / 36524 :=
    Nat.div_le_div_left (by omega) (by omega)
  have h4 : b / 146096 ≤ b / 36524 :=
    Nat.div_le_div_left (by omega) (by omega)
  have h5 : a / 1460 ≤ a := Nat.div_le_self _ _
  have h6 : b / 1460 ≤ b := Nat.div_le_self _ _
  unfold fAdj
  omega

/-- Leap-year test for year-of-era `yoe`: the March-based year `yoe`
contains a February 29 exactly when the calendar year `yoe + 1` (mod 400)
is a leap year. -/
def leapYoe (yoe : Nat) : Bool :=
  (yoe + 1) % 4 == 0 && ((yoe + 1) % 100 != 0 || yoe == 399)

theorem leapYoe_iff (yoe : Nat) :
    leapYoe yoe = true ↔ ((yoe + 1) % 4 = 0 ∧ ((yoe + 1) % 100 ≠ 0 ∨ yoe = 399)) := by
  simp [leapYoe]

theorem isLeapYear_iff (y : Nat) :
    isLeapYear y = true ↔ (y % 4 = 0 ∧ (y % 100 ≠ 0 ∨ y % 400 = 0)) := by
  simp [isLeapYear]

set_option maxRecDepth 100000 in
/-- Boundary facts for the year-of-era extraction, checked for all 400
years of an era: `fAdj` of the first day of the year is at least
`365 * yoe`, and `fAdj` of the last day (day 364, or day 365 in a leap
year) is below `365 * (yoe + 1)`. -/
theorem yoe_bounds : ∀ yoe : Nat, yoe < 400 →
    yoe * 365 ≤ fAdj (yoe * 365 + yoe / 4 - yoe / 100) ∧
    fAdj (yoe * 365 + yoe / 4 - yoe / 100 + 364) < yoe * 365 + 365 ∧
    (leapYoe yoe = true → fAdj (yoe * 365 + yoe / 4 - yoe / 100 + 365) < yoe * 365 + 365) := by
  decide

theorem yoe_extract {yoe doy : Nat} (h1 : yoe ≤ 399)
    (h2 : doy ≤ 364 ∨ (doy = 365 ∧ leapYoe yoe = true)) :
    fAdj (yoe * 365 + yoe / 4 - yoe / 100 + doy) / 365 = yoe := by
  obtain ⟨hb1, hb2, hb3⟩ := yoe_bounds yoe (by omega)
  have hm1 : fAdj (yoe * 365 + yoe / 4 - yoe / 100)
      ≤ fAdj (yoe * 365 + yoe / 4 - yoe / 100 + doy) :=
    fAdj_mono (by omega)
  rcases h2 with h | ⟨h, hl⟩
  · have hm2 : fAdj (yoe * 365 + yoe / 4 - yoe / 100 + doy)
        ≤ fAdj (yoe * 365 + yoe / 4 - yoe / 100 + 364) :=
      fAdj_mono (by omega)
    omega
  · have hm2 : fAdj (yoe * 365 + yoe / 4 - yoe / 100 + doy)
        ≤ fAdj (yoe * 365 + yoe / 4 - yoe / 100 + 365) :=
      fAdj_mono (by omega)
    have := hb3 hl
    omega

/-- Length of the March-based month `mp` (0 = March, …, 11 = February),
counting 29 for February (its leap-year maximum). -/
def mpDays (mp : Nat) : Nat :=
  if mp = 1 ∨ mp = 3 ∨ mp = 6 ∨ mp = 8 then 30
  else if mp = 11 then 29 else 31

set_option maxRecDepth 100000 in
/-- Month extraction: for a day offset within the month, the formula
`(5 * doy + 2) / 153` recovers the March-based month index. -/
theorem mp_extract : ∀ mp : Nat, mp < 12 → ∀ e : Nat, e < mpDays mp →
    (5 * ((153 * mp + 2) / 5 + e) + 2) / 153 = mp := by
  decide

theorem daysInMonth_le_31 (y m : Nat) : daysInMonth y m ≤ 31 := by
  unfold daysInMonth
  split_ifs <;> omega

theorem daysInMonth_le_mpDays (y m : Nat) (h1 : 1 ≤ m) (h2 : m ≤ 12) :
    daysInMonth y m ≤ mpDays (if 2 < m then m - 3 else m + 9) := by
  interval_cases m <;> simp [daysInMonth, mpDays] <;> split_ifs <;> omega

theorem civil_core (y m d y' era yoe mp doy doe : Nat)
    (hy : y ≤ 9999) (hm1 : 1 ≤ m) (hm2 : m ≤ 12) (hd1 : 1 ≤ d)
    (hd2 : d ≤ daysInMonth y m)
    (hy' : y' = y + 400 - (if m ≤ 2 then 1 else 0))
    (hera : era = y' / 400) (hyoe : yoe = y' % 400)
    (hmp : mp = if 2 < m then m - 3 else m + 9)
    (hdoy : doy = (153 * mp + 2) / 5 + (d - 1))
    (hdoe : doe = yoe * 365 + yoe / 4 - yoe / 100 + doy) :
    civilOfShifted (era * 146097 + doe) = (y, m, d) := by
  have hd31 : d ≤ 31 := le_trans hd2 (daysInMonth_le_31 y m)
  have hdmp : d ≤ mpDays mp := by
    rw [hmp]
    exact le_trans hd2 (daysInMonth_le_mpDays y m hm1 hm2)
  have hmp12 : mp < 12 := by
    rw [hmp]; split <;> omega
  have hyoe399 : yoe ≤ 399 := by rw [hyoe]; omega
  have hdoyb : doy ≤ 364 ∨ (doy = 365 ∧ leapYoe yoe = true) := by
    by_cases hm2' : m = 2
    · subst hm2'
      have hmp11 : mp = 11 := by rw [hmp]; norm_num
      by_cases hl : isLeapYear y = true
      · have hd29 : d ≤ 29 := by
          simpa [daysInMonth, hl] using hd2
        by_cases hd29' : d = 29
        · refine Or.inr ⟨?_, ?_⟩
          · rw [hdoy, hmp11, hd29']
          · rw [leapYoe_iff]
            rw [isLeapYear_iff] at hl
            have hyoe2 : yoe = (y + 400 - 1) % 400 := by
              rw [hyoe, hy']
              norm_num
            omega
        · exact Or.inl (by rw [hdoy, hmp11]; omega)
      · replace hl : isLeapYear y = false := by simpa using hl
        have hd28 : d ≤ 28 := by
          simpa [daysInMonth, hl] using hd2
        exact Or.inl (by rw [hdoy, hmp11]; omega)
    · left
      have hmp10 : mp ≤ 10 := by
        rw [hmp]; split <;> omega
      rw [hdoy]
      omega
  have hdoy365 : doy ≤ 365 := by rcases hdoyb with h | ⟨h, _⟩ <;> omega
  have hdoe146 : doe ≤ 146096 := by rw [hdoe]; omega
  have hsplit1 : (era * 146097 + doe) / 146097 = era := by omega
  have hsplit2 : (era * 146097 + doe) % 146097 = doe := by omega
  simp only [civilOfShifted]
  rw [hsplit1, hsplit2]
  have hyx : fAdj doe / 365 = yoe := by
    rw [hdoe]
    exact yoe_extract hyoe399 hdoyb
  rw [hyx]
  have hdoyx : doe - (yoe * 365 + yoe / 4 - yoe / 100) = doy := by
    rw [hdoe]; omega
  rw [hdoyx]
  have hmpx : (5 * doy + 2) / 153 = mp := by
    rw [hdoy]
    exact mp_extract mp hmp12 (d - 1) (by omega)
  rw [hmpx]
  have hdx : doy - (153 * mp + 2) / 5 + 1 = d := by
    rw [hdoy]; omega
  rw [hdx]
  have hmx : (if mp < 10 then mp + 3 else mp - 9) = m := by
    rw [hmp]; split_ifs <;> omega
  rw [hmx]
  have hyy : era * 400 + yoe + (if m ≤ 2 then 1 else 0) - 400 = y := by
    have h1 : era * 400 + yoe = y' := by rw [hera, hyoe]; omega
    rw [h1, hy']
    split_ifs <;> omega
  rw [hyy]

theorem civil_roundtrip (y m d : Nat) (hy : y ≤ 9999) (hm1 : 1 ≤ m) (hm2 : m ≤ 12)
    (hd1 : 1 ≤ d) (hd2 : d ≤ daysInMonth y m) :
    civilOfShifted (daysFromCivilShifted y m d) = (y, m, d) := by
  have hG : daysFromCivilShifted y m d
      = ((y + 400 - (if m ≤ 2 then 1 else 0)) / 400) * 146097 +
        (((y + 400 - (if m ≤ 2 then 1 else 0)) % 400) * 365 +
          ((y + 400 - (if m ≤ 2 then 1 else 0)) % 400) / 4 -
          ((y + 400 - (if m ≤ 2 then 1 else 0)) % 400) / 100 +
          ((153 * (if 2 < m then m - 3 else m + 9) + 2) / 5 + (d - 1))) := rfl
  rw [hG]
  exact civil_core y m d _ _ _ _ _ _ hy hm1 hm2 hd1 hd2 rfl rfl rfl rfl rfl rfl

theorem digitsAux_two (fuel m : Nat) (hf : 1 < fuel) (h1 : 10 ≤ m) (h2 : m ≤ 99) :
    digitsAux fuel m = [Nat.digitChar (m / 10), Nat.digitChar (m % 10)] := by
  cases fuel with
  | zero => omega
  | succ f =>
    rw [show digitsAux (f + 1) m
        = if m < 10 then [Nat.digitChar m]
          else digitsAux f (m / 10) ++ [Nat.digitChar (m % 10)] from rfl]
    rw [if_neg (by omega)]
    rw [digitsAux_lt10 f (m / 10) (by omega) (by omega)]
    rfl

theorem digitsAux_three (fuel m : Nat) (hf : 2 < fuel) (h1 : 100 ≤ m) (h2 : m ≤ 999) :
    digitsAux fuel m
      = [Nat.digitChar (m / 100), Nat.digitChar (m / 10 % 10), Nat.digitChar (m % 10)] := by
  cases fuel with
  | zero => omega
  | succ f =>
    rw [show digitsAux (f + 1) m
        = if m < 10 then [Nat.digitChar m]
          else digitsAux f (m / 10) ++ [Nat.digitChar (m % 10)] from rfl]
    rw [if_neg (by omega)]
    rw [digitsAux_two f (m / 10) (by omega) (by omega) (by omega)]
    rw [Nat.div_div_eq_div_mul]
    rfl

theorem digitsAux_four (fuel m : Nat) (hf : 3 < fuel) (h1 : 1000 ≤ m) (h2 : m ≤ 9999) :
    digitsAux fuel m
      = [Nat.digitChar (m / 1000), Nat.digitChar (m / 100 % 10),
         Nat.digitChar (m / 10 % 10), Nat.digitChar (m % 10)] := by
  cases fuel with
  | zero => omega
  | succ f =>
    rw [show digitsAux (f + 1) m
        = if m < 10 then [Nat.digitChar m]
          else digitsAux f (m / 10) ++ [Nat.digitChar (m % 10)] from rfl]
    rw [if_neg (by omega)]
    rw [digitsAux_three f (m / 10) (by omega) (by omega) (by omega)]
    rw [Nat.div_div_eq_div_mul]
    rw [show m / 10 / 10 % 10 = m / 100 % 10 by rw [Nat.div_div_eq_div_mul]]
    rfl

theorem padZero4_spec (n : Nat) (h : n ≤ 9999) :
    ∃ a b c d, padZero 4 n = [a, b, c, d] ∧
      a.isDigit = true ∧ b.isDigit = true ∧ c.isDigit = true ∧ d.isDigit = true ∧
      dval a * 1000 + dval b * 100 + dval c * 10 + dval d = n := by
  have h0 : dval '0' = 0 := rfl
  have hd0 : Char.isDigit '0' = true := rfl
  by_cases c1 : n < 10
  · refine ⟨'0', '0', '0', Nat.digitChar n, ?_, hd0, hd0, hd0,
      (digitChar_spec n (by omega)).1, ?_⟩
    · rw [padZero, natDigits_lt10 n c1]
      rfl
    · have := (digitChar_spec n (by omega)).2
      omega
  · by_cases c2 : n < 100
    · refine ⟨'0', '0', Nat.digitChar (n / 10), Nat.digitChar (n % 10), ?_, hd0, hd0,
        (digitChar_spec (n / 10) (by omega)).1, (digitChar_spec (n % 10) (by omega)).1, ?_⟩
      · rw [padZero, natDigits_two n (by omega) (by omega)]
        rfl
      · have ha := (digitChar_spec (n / 10) (by omega)).2
        have hb := (digitChar_spec (n % 10) (by omega)).2
        omega
    · by_cases c3 : n < 1000
      · refine ⟨'0', Nat.digitChar (n / 100), Nat.digitChar (n / 10 % 10),
          Nat.digitChar (n % 10), ?_, hd0,
          (digitChar_spec (n / 100) (by omega)).1,
          (digitChar_spec (n / 10 % 10) (by omega)).1,
          (digitChar_spec (n % 10) (by omega)).1, ?_⟩
        · rw [padZero, show natDigits n = digitsAux (n + 1) n from rfl,
            digitsAux_three (n + 1) n (by omega) (by omega) (by omega)]
          rfl
        · have ha := (digitChar_spec (n / 100) (by omega)).2
          have hb := (digitChar_spec (n / 10 % 10) (by omega)).2
          have hc := (digitChar_spec (n % 10) (by omega)).2
          omega
      · refine ⟨Nat.digitChar (n / 1000), Nat.digitChar (n / 100 % 10),
          Nat.digitChar (n / 10 % 10), Nat.digitChar (n % 10), ?_,
          (digitChar_spec (n / 1000) (by omega)).1,
          (digitChar_spec (n / 100 % 10) (by omega)).1,
          (digitChar_spec (n / 10 % 10) (by omega)).1,
          (digitChar_spec (n % 10) (by omega)).1, ?_⟩
        · rw [padZero, show natDigits n = digitsAux (n + 1) n from rfl,
            digitsAux_four (n + 1) n (by omega) (by omega) (by omega)]
          rfl
        · have ha := (digitChar_spec (n / 1000) (by omega)).2
          have hb := (digitChar_spec (n / 100 % 10) (by omega)).2
          have hc := (digitChar_spec (n / 10 % 10) (by omega)).2
          have hd := (digitChar_spec (n % 10) (by omega)).2
          omega

theorem jsDateParse_fmtDate (y m d : Nat) (hy : y ≤ 9999) (hm1 : 1 ≤ m) (hm2 : m ≤ 12)
    (hd1 : 1 ≤ d) (hd2 : d ≤ daysInMonth y m) :
    jsDateParse (fmtDate y m d) = some (dateMs y m d) := by
  obtain ⟨a, b, c, e, hy4, ha, hb, hc, he, hv⟩ := padZero4_spec y hy
  obtain ⟨f, g, hm4, hf, hg, hvm⟩ := padZero2_spec m (by omega)
  have hd99 : d ≤ 99 := by
    have := daysInMonth_le_31 y m
    omega
  obtain ⟨i, j, hd4, hi, hj, hvd⟩ := padZero2_spec d hd99
  have hdata : (fmtDate y m d).data = [a, b, c, e, '-', f, g, '-', i, j] := by
    show padZero 4 y ++ '-' :: padZero 2 m ++ '-' :: padZero 2 d = _
    rw [hy4, hm4, hd4]
    rfl
  simp only [jsDateParse, hdata]
  rw [hv, hvm, hvd]
  simp [ha, hb, hc, he, hf, hg, hi, hj, hm1, hm2, hd1, hd2]

theorem toISODate_dateMs (y m d : Nat) (hy : y ≤ 9999) (hm1 : 1 ≤ m) (hm2 : m ≤ 12)
    (hd1 : 1 ≤ d) (hd2 : d ≤ daysInMonth y m) :
    toISODate (dateMs y m d) = fmtDate y m d := by
  have h1 : (dateMs y m d).fdiv 86400000
      = (daysFromCivilShifted y m d : Int) - 146097 - 719468 := by
    rw [dateMs]
    exact Int.mul_fdiv_cancel_left _ (by norm_num)
  have h2 : ((dateMs y m d).fdiv 86400000 + 719468 + 146097).toNat
      = daysFromCivilShifted y m d := by
    rw [h1]
    omega
  simp only [toISODate, h2]
  rw [civil_roundtrip y m d hy hm1 hm2 hd1 hd2]

/-! ## Claim about the Date Normalizer -/

/-- C8: the Date Normalizer returns any canonical `YYYY-MM-DD` string
denoting a valid calendar date (year 0000–9999) unchanged, and it fails
with `InvalidDate` exactly on the inputs `new Date` cannot parse into a
valid time value (within the modelled date-only ISO grammar). -/
theorem claim_C8 :
    (∀ y m d : Nat, y ≤ 9999 → 1 ≤ m → m ≤ 12 → 1 ≤ d → d ≤ daysInMonth y m →
      normalizeDate (fmtDate y m d) = .ok (fmtDate y m d)) ∧
    (∀ s : String, normalizeDate s = .error .invalidDate ↔ jsDateParse s = none) := by
  constructor
  · intro y m d hy hm1 hm2 hd1 hd2
    simp only [normalizeDate, jsDateParse_fmtDate y m d hy hm1 hm2 hd1 hd2]
    rw [toISODate_dateMs y m d hy hm1 hm2 hd1 hd2]
  · intro s
    cases hp : jsDateParse s with
    | none => simp [normalizeDate, hp]
    | some ms => simp [normalizeDate, hp]

/-- C8 (witness): the canonical date `"2025-01-31"` round-trips unchanged
through the Date Normalizer. -/
theorem claim_C8_witness : normalizeDate "2025-01-31" = .ok "2025-01-31" := by
  have h := claim_C8.1 2025 1 31 (by norm_num) (by norm_num) (by norm_num)
    (by norm_num) (by decide)
  have hf : fmtDate 2025 1 31 = "2025-01-31" := rfl
  rw [hf] at h
  exact h

/-! ## Event record validator -/

/-- Candidate Event record as seen by the pre-save hook.  An `Option` field
models a value that may be absent (`undefined`) or of the wrong shape: for
text fields `none` models a non-string value, for the two array fields
`none` models absent-or-not-an-array.  `slug` is managed by the hook
itself. -/
structure EventDoc where
  title : Option String
  slug : String
  description : Option String
  overview : Option String
  image : Option String
  venue : Option String
  location : Option String
  date : Option String
  time : Option String
  mode : Option String
  audience : Option String
  agenda : Option (List String)
  organizer : Option String
  tags : Option (List String)
deriving DecidableEq, Repr

/-- The check `typeof value !== 'string' || value.trim().length === 0`
applied to a required text field, throwing `Field "<name>" is required`,
and otherwise handing back the (untrimmed) value. -/
def checkStr (name : String) (v : Option String) : Except SaveError String :=
  match v with
  | none => .error (.missingField name)
  | some s => if (jsTrim s.data).isEmpty then .error (.missingField name) else .ok s

/-- The check `!Array.isArray(value) || value.length === 0` applied to a
required array field, throwing `Field "<name>" must be a non-empty
array`. -/
def checkArr (name : String) (v : Option (List String)) : Except SaveError (List String) :=
  match v with
  | none => .error (.missingField name)
  | some l => if l.isEmpty then .error (.missingField name) else .ok l

/-- `eventPreSave` from the event model: check the eleven required text
fields in source order, then the two required array fields, then regenerate
the slug when the title was modified in this write (for a new record every
path counts as modified), then overwrite `date` and `time` with their
normalized forms.  Any thrown error aborts the save. -/
def eventPreSave (doc : EventDoc) (titleModified : Bool) : Except SaveError EventDoc :=
  (checkStr "title" doc.title).bind fun title =>
  (checkStr "description" doc.description).bind fun _ =>
  (checkStr "overview" doc.overview).bind fun _ =>
  (checkStr "image" doc.image).bind fun _ =>
  (checkStr "venue" doc.venue).bind fun _ =>
  (checkStr "location" doc.location).bind fun _ =>
  (checkStr "date" doc.date).bind fun date =>
  (checkStr "time" doc.time).bind fun time =>
  (checkStr "mode" doc.mode).bind fun _ =>
  (checkStr "audience" doc.audience).bind fun _ =>
  (checkStr "organizer" doc.organizer).bind fun _ =>
  (checkArr "agenda" doc.agenda).bind fun _ =>
  (checkArr "tags" doc.tags).bind fun _ =>
  let slug := if titleModified then generateSlug title else doc.slug
  (normalizeDate date).bind fun date' =>
  (normalizeTime time).bind fun time' =>
  .ok { doc with slug := slug, date := some date', time := some time' }

/-- A required text field is missing: absent or empty after trimming. -/
def strFieldBad (v : Option String) : Bool :=
  match v with
  | none => true
  | some s => (jsTrim s.data).isEmpty

/-- A required array field is missing: absent, not a list, or empty. -/
def arrFieldBad (v : Option (List String)) : Bool :=
  match v with
  | none => true
  | some l => l.isEmpty

/-- Some required field of the candidate is missing. -/
def anyFieldBad (doc : EventDoc) : Bool :=
  strFieldBad doc.title || strFieldBad doc.description || strFieldBad doc.overview ||
  strFieldBad doc.image || strFieldBad doc.venue || strFieldBad doc.location ||
  strFieldBad doc.date || strFieldBad doc.time || strFieldBad doc.mode ||
  strFieldBad doc.audience || strFieldBad doc.organizer ||
  arrFieldBad doc.agenda || arrFieldBad doc.tags

/-- `n` names a required field of the candidate that is missing. -/
def badFieldNamed (doc : EventDoc) (n : String) : Bool :=
  (n == "title" && strFieldBad doc.title) ||
  (n == "description" && strFieldBad doc.description) ||
  (n == "overview" && strFieldBad doc.overview) ||
  (n == "image" && strFieldBad doc.image) ||
  (n == "venue" && strFieldBad doc.venue) ||
  (n == "location" && strFieldBad doc.location) ||
  (n == "date" && strFieldBad doc.date) ||
  (n == "time" && strFieldBad doc.time) ||
  (n == "mode" && strFieldBad doc.mode) ||
  (n == "audience" && strFieldBad doc.audience) ||
  (n == "organizer" && strFieldBad doc.organizer) ||
  (n == "agenda" && arrFieldBad doc.agenda) ||
  (n == "tags" && arrFieldBad doc.tags)

theorem checkStr_bad (name : String) {v : Option String} (h : strFieldBad v = true) :
    checkStr name v = .error (.missingField name) := by
  cases v with
  | none => rfl
  | some s =>
    simp only [strFieldBad] at h
    simp [checkStr, h]

theorem checkStr_ok (name : String) {v : Option String} (h : strFieldBad v = false) :
    ∃ s, v = some s ∧ checkStr name v = .ok s := by
  cases v with
  | none => simp [strFieldBad] at h
  | some s =>
    simp only [strFieldBad] at h
    exact ⟨s, rfl, by simp [checkStr, h]⟩

theorem checkArr_bad (name : String) {v : Option (List String)} (h : arrFieldBad v = true) :
    checkArr name v = .error (.missingField name) := by
  cases v with
  | none => rfl
  | some l =>
    simp only [arrFieldBad] at h
    simp [checkArr, h]

theorem checkArr_ok (name : String) {v : Option (List String)} (h : arrFieldBad v = false) :
    ∃ l, v = some l ∧ checkArr name v = .ok l := by
  cases v with
  | none => simp [arrFieldBad] at h
  | some l =>
    simp only [arrFieldBad] at h
    exact ⟨l, rfl, by simp [checkArr, h]⟩

/-! ## Claims about the Event Record Validator -/

/-- C5: whenever any required text attribute is absent or empty after
trimming, or `agenda`/`tags` is absent, not a list, or empty, the Event
Record Validator fails with `MissingField` naming an offending field (the
first one in source order); in particular an otherwise-complete candidate
whose `tags` is the empty list is rejected with `MissingField "tags"`. -/
theorem claim_C5 (doc : EventDoc) (tm : Bool) :
    (anyFieldBad doc = true →
      ∃ n, eventPreSave doc tm = .error (.missingField n) ∧ badFieldNamed doc n = true) ∧
    (strFieldBad doc.title = false → strFieldBad doc.description = false →
     strFieldBad doc.overview = false → strFieldBad doc.image = false →
     strFieldBad doc.venue = false → strFieldBad doc.location = false →
     strFieldBad doc.date = false → strFieldBad doc.time = false →
     strFieldBad doc.mode = false → strFieldBad doc.audience = false →
     strFieldBad doc.organizer = false → arrFieldBad doc.agenda = false →
     doc.tags = some [] →
     eventPreSave doc tm = .error (.missingField "tags")) := by
  constructor
  · intro hany
    by_cases h1 : strFieldBad doc.title = true
    · exact ⟨"title", by simp [eventPreSave, checkStr_bad "title" h1, Except.bind],
        by simp [badFieldNamed, h1]⟩
    · rw [Bool.not_eq_true] at h1
      obtain ⟨s1, hv1, hk1⟩ := checkStr_ok "title" h1
      by_cases h2 : strFieldBad doc.description = true
      · exact ⟨"description", by simp [eventPreSave, hk1, checkStr_bad "description" h2, Except.bind],
          by simp [badFieldNamed, h2]⟩
      · rw [Bool.not_eq_true] at h2
        obtain ⟨s2, hv2, hk2⟩ := checkStr_ok "description" h2
        by_cases h3 : strFieldBad doc.overview = true
        · exact ⟨"overview", by simp [eventPreSave, hk1, hk2, checkStr_bad "overview" h3, Except.bind],
            by simp [badFieldNamed, h3]⟩
        · rw [Bool.not_eq_true] at h3
          obtain ⟨s3, hv3, hk3⟩ := checkStr_ok "overview" h3
          by_cases h4 : strFieldBad doc.image = true
          · exact ⟨"image", by simp [eventPreSave, hk1, hk2, hk3, checkStr_bad "image" h4, Except.bind],
              by simp [badFieldNamed, h4]⟩
          · rw [Bool.not_eq_true] at h4
            obtain ⟨s4, hv4, hk4⟩ := checkStr_ok "image" h4
            by_cases h5 : strFieldBad doc.venue = true
            · exact ⟨"venue", by simp [eventPreSave, hk1, hk2, hk3, hk4, checkStr_bad "venue" h5, Except.bind],
                by simp [badFieldNamed, h5]⟩
            · rw [Bool.not_eq_true] at h5
              obtain ⟨s5, hv5, hk5⟩ := checkStr_ok "venue" h5
              by_cases h6 : strFieldBad doc.location = true
              · exact ⟨"location", by simp [eventPreSave, hk1, hk2, hk3, hk4, hk5, checkStr_bad "location" h6, Except.bind],
                  by simp [badFieldNamed, h6]⟩
              · rw [Bool.not_eq_true] at h6
                obtain ⟨s6, hv6, hk6⟩ := checkStr_ok "location" h6
                by_cases h7 : strFieldBad doc.date = true
                · exact ⟨"date", by simp [eventPreSave, hk1, hk2, hk3, hk4, hk5, hk6, checkStr_bad "date" h7, Except.bind],
                    by simp [badFieldNamed, h7]⟩
                · rw [Bool.not_eq_true] at h7
                  obtain ⟨s7, hv7, hk7⟩ := checkStr_ok "date" h7
                  by_cases h8 : strFieldBad doc.time = true
                  · exact ⟨"time", by simp [eventPreSave, hk1, hk2, hk3, hk4, hk5, hk6, hk7, checkStr_bad "time" h8, Except.bind],
                      by simp [badFieldNamed, h8]⟩
                  · rw [Bool.not_eq_true] at h8
                    obtain ⟨s8, hv8, hk8⟩ := checkStr_ok "time" h8
                    by_cases h9 : strFieldBad doc.mode = true
                    · exact ⟨"mode", by simp [eventPreSave, hk1, hk2, hk3, hk4, hk5, hk6, hk7, hk8, checkStr_bad "mode" h9, Except.bind],
                        by simp [badFieldNamed, h9]⟩
                    · rw [Bool.not_eq_true] at h9
                      obtain ⟨s9, hv9, hk9⟩ := checkStr_ok "mode" h9
                      by_cases h10 : strFieldBad doc.audience = true
                      · exact ⟨"audience", by simp [eventPreSave, hk1, hk2, hk3, hk4, hk5, hk6, hk7, hk8, hk9, checkStr_bad "audience" h10, Except.bind],
                          by simp [badFieldNamed, h10]⟩
                      · rw [Bool.not_eq_true] at h10
                        obtain ⟨s10, hv10, hk10⟩ := checkStr_ok "audience" h10
                        by_cases h11 : strFieldBad doc.organizer = true
                        · exact ⟨"organizer", by simp [eventPreSave, hk1, hk2, hk3, hk4, hk5, hk6, hk7, hk8, hk9, hk10, checkStr_bad "organizer" h11, Except.bind],
                            by simp [badFieldNamed, h11]⟩
                        · rw [Bool.not_eq_true] at h11
                          obtain ⟨s11, hv11, hk11⟩ := checkStr_ok "organizer" h11
                          by_cases h12 : arrFieldBad doc.agenda = true
                          · exact ⟨"agenda", by simp [eventPreSave, hk1, hk2, hk3, hk4, hk5, hk6, hk7, hk8, hk9, hk10, hk11, checkArr_bad "agenda" h12, Except.bind],
                              by simp [badFieldNamed, h12]⟩
                          · rw [Bool.not_eq_true] at h12
                            obtain ⟨s12, hv12, hk12⟩ := checkArr_ok "agenda" h12
                            by_cases h13 : arrFieldBad doc.tags = true
                            · exact ⟨"tags", by simp [eventPreSave, hk1, hk2, hk3, hk4, hk5, hk6, hk7, hk8, hk9, hk10, hk11, hk12, checkArr_bad "tags" h13, Except.bind],
                                by simp [badFieldNamed, h13]⟩
                            · rw [Bool.not_eq_true] at h13
                              simp [anyFieldBad, h1, h2, h3, h4, h5, h6, h7, h8, h9, h10, h11, h12, h13] at hany
  · intro g1 g2 g3 g4 g5 g6 g7 g8 g9 g10 g11 g12 gtags
    obtain ⟨t1, w1, k1⟩ := checkStr_ok "title" g1
    obtain ⟨t2, w2, k2⟩ := checkStr_ok "description" g2
    obtain ⟨t3, w3, k3⟩ := checkStr_ok "overview" g3
    obtain ⟨t4, w4, k4⟩ := checkStr_ok "image" g4
    obtain ⟨t5, w5, k5⟩ := checkStr_ok "venue" g5
    obtain ⟨t6, w6, k6⟩ := checkStr_ok "location" g6
    obtain ⟨t7, w7, k7⟩ := checkStr_ok "date" g7
    obtain ⟨t8, w8, k8⟩ := checkStr_ok "time" g8
    obtain ⟨t9, w9, k9⟩ := checkStr_ok "mode" g9
    obtain ⟨t10, w10, k10⟩ := checkStr_ok "audience" g10
    obtain ⟨t11, w11, k11⟩ := checkStr_ok "organizer" g11
    obtain ⟨t12, w12, k12⟩ := checkArr_ok "agenda" g12
    have ktags : checkArr "tags" doc.tags = .error (.missingField "tags") := by
      rw [gtags]
      rfl
    simp [eventPreSave, k1, k2, k3, k4, k5, k6, k7, k8, k9, k10, k11, k12,
      ktags, Except.bind]

theorem checkStr_ok_inv {name : String} {v : Option String} {s : String}
    (h : checkStr name v = .ok s) : v = some s := by
  cases v with
  | none => simp [checkStr] at h
  | some s0 =>
    simp only [checkStr] at h
    split at h
    · cases h
    · cases h
      rfl

theorem eventPreSave_ok_slug (doc : EventDoc) (tm : Bool) (doc' : EventDoc)
    (h : eventPreSave doc tm = .ok doc') :
    ∃ t, doc.title = some t ∧
      doc'.slug = (if tm then generateSlug t else doc.slug) := by
  cases hc1 : checkStr "title" doc.title with
  | error e => simp [eventPreSave, hc1, Except.bind] at h
  | ok t1 =>
    cases hc2 : checkStr "description" doc.description with
    | error e => simp [eventPreSave, hc1, hc2, Except.bind] at h
    | ok t2 =>
      cases hc3 : checkStr "overview" doc.overview with
      | error e => simp [eventPreSave, hc1, hc2, hc3, Except.bind] at h
      | ok t3 =>
        cases hc4 : checkStr "image" doc.image with
        | error e => simp [eventPreSave, hc1, hc2, hc3, hc4, Except.bind] at h
        | ok t4 =>
          cases hc5 : checkStr "venue" doc.venue with
          | error e => simp [eventPreSave, hc1, hc2, hc3, hc4, hc5, Except.bind] at h
          | ok t5 =>
            cases hc6 : checkStr "location" doc.location with
            | error e => simp [eventPreSave, hc1, hc2, hc3, hc4, hc5, hc6, Except.bind] at h
            | ok t6 =>
              cases hc7 : checkStr "date" doc.date with
              | error e => simp [eventPreSave, hc1, hc2, hc3, hc4, hc5, hc6, hc7, Except.bind] at h
              | ok t7 =>
                cases hc8 : checkStr "time" doc.time with
                | error e => simp [eventPreSave, hc1, hc2, hc3, hc4, hc5, hc6, hc7, hc8, Except.bind] at h
                | ok t8 =>
                  cases hc9 : checkStr "mode" doc.mode with
                  | error e => simp [eventPreSave, hc1, hc2, hc3, hc4, hc5, hc6, hc7, hc8, hc9, Except.bind] at h
                  | ok t9 =>
                    cases hc10 : checkStr "audience" doc.audience with
                    | error e => simp [eventPreSave, hc1, hc2, hc3, hc4, hc5, hc6, hc7, hc8, hc9, hc10, Except.bind] at h
                    | ok t10 =>
                      cases hc11 : checkStr "organizer" doc.organizer with
                      | error e => simp [eventPreSave, hc1, hc2, hc3, hc4, hc5, hc6, hc7, hc8, hc9, hc10, hc11, Except.bind] at h
                      | ok t11 =>
                        cases hc12 : checkArr "agenda" doc.agenda with
                        | error e => simp [eventPreSave, hc1, hc2, hc3, hc4, hc5, hc6, hc7, hc8, hc9, hc10, hc11, hc12, Except.bind] at h
                        | ok t12 =>
                          cases hc13 : checkArr "tags" doc.tags with
                          | error e => simp [eventPreSave, hc1, hc2, hc3, hc4, hc5, hc6, hc7, hc8, hc9, hc10, hc11, hc12, hc13, Except.bind] at h
                          | ok t13 =>
                            cases hnd : normalizeDate t7 with
                            | error e => simp [eventPreSave, hc1, hc2, hc3, hc4, hc5, hc6, hc7, hc8, hc9, hc10, hc11, hc12, hc13, hnd, Except.bind] at h
                            | ok da =>
                              cases hnt : normalizeTime t8 with
                              | error e => simp [eventPreSave, hc1, hc2, hc3, hc4, hc5, hc6, hc7, hc8, hc9, hc10, hc11, hc12, hc13, hnd, hnt, Except.bind] at h
                              | ok ti =>
                                have hred : eventPreSave doc tm
                                    = .ok { doc with
                                        slug := (if tm then generateSlug t1 else doc.slug),
                                        date := some da,
                                        time := some ti } := by
                                  simp [eventPreSave, hc1, hc2, hc3, hc4, hc5, hc6, hc7, hc8, hc9, hc10, hc11, hc12, hc13, hnd, hnt, Except.bind]
                                rw [hred] at h
                                injection h with h2
                                refine ⟨t1, checkStr_ok_inv hc1, ?_⟩
                                rw [← h2]

/-- C7: across writes of an Event record, the validator recomputes and
overwrites the slug from the current title exactly when the title was
changed in that write (`isModified('title')`, which also holds for a new
record), and leaves the stored slug unchanged otherwise. -/
theorem claim_C7 (doc : EventDoc) (tm : Bool) (doc' : EventDoc)
    (h : eventPreSave doc tm = .ok doc') :
    (tm = true → ∃ t, doc.title = some t ∧ doc'.slug = generateSlug t) ∧
    (tm = false → doc'.slug = doc.slug) := by
  obtain ⟨t, ht, hs⟩ := eventPreSave_ok_slug doc tm doc' h
  constructor
  · intro htm
    subst htm
    exact ⟨t, ht, by simpa using hs⟩
  · intro htm
    subst htm
    simpa using hs

/-- Complete candidate record used as a concrete test vehicle (the spec's
end-to-end example: `title = "My Dev Talk!!"`, `date = "2025-01-31"`,
`time = "2:30 PM"`). -/
def sampleDoc : EventDoc :=
  { title := some "My Dev Talk!!", slug := "", description := some "A talk",
    overview := some "Overview", image := some "/img.png", venue := some "Hall 1",
    location := some "Berlin", date := some "2025-01-31", time := some "2:30 PM",
    mode := some "offline", audience := some "devs", agenda := some ["intro"],
    organizer := some "ACME", tags := some ["dev"] }

/-- The stored record after validating `sampleDoc` as a new record. -/
def sampleDocSaved : EventDoc :=
  { sampleDoc with slug := "my-dev-talk", time := some "14:30" }

/-- C5 (witness): a complete candidate with `tags = []` is rejected with
`MissingField "tags"`. -/
theorem claim_C5_witness :
    eventPreSave { sampleDoc with tags := some [] } true
      = .error (.missingField "tags") :=
  (claim_C5 { sampleDoc with tags := some [] } true).2 rfl rfl rfl rfl rfl rfl
    rfl rfl rfl rfl rfl rfl rfl

/-- C7 (witness): saving `sampleDoc` as a new record stores the slug
generated from its title. -/
theorem claim_C7_witness :
    ∃ t, sampleDoc.title = some t ∧ sampleDocSaved.slug = generateSlug t :=
  (claim_C7 sampleDoc true sampleDocSaved rfl).1 rfl

/-- C10: the Time Normalizer is not idempotent on its accepted inputs:
`"13:00 PM"` is accepted and normalized to `"25:00"`, which the normalizer
itself rejects; consequently an Event carrying time `"13:00 PM"` saves
successfully once, but re-validating the stored record (as every
subsequent write does) fails with `InvalidTime`. -/
theorem claim_C10 :
    normalizeTime "13:00 PM" = .ok "25:00" ∧
    normalizeTime "25:00" = .error .invalidTime ∧
    eventPreSave { sampleDoc with time := some "13:00 PM" } true
      = .ok { sampleDocSaved with time := some "25:00" } ∧
    eventPreSave { sampleDocSaved with time := some "25:00" } false
      = .error .invalidTime :=
  ⟨rfl, rfl, rfl, rfl⟩

/-! ## Booking record validator -/

/-- The character class `[^\s@]` of `EMAIL_REGEX`. -/
def emailOkChar (c : Char) : Bool := !jsWhitespace c && c != '@'

/-- Anchored match of `EMAIL_REGEX = /^[^\s@]+@[^\s@]+\.[^\s@]+$/`: a
nonempty local part without whitespace or `@`, then the first `@`, then a
remainder without whitespace or `@` that contains a `.` with at least one
character on each side (only the first `@` can be the separator, since the
local part excludes `@`). -/
def emailMatch (l : List Char) : Bool :=
  match l.findIdx? (· == '@') with
  | none => false
  | some i =>
    let lpart := l.take i
    let rest := l.drop (i + 1)
    !lpart.isEmpty && lpart.all emailOkChar && rest.all emailOkChar &&
      (rest.drop 1).dropLast.contains '.'

/-- Candidate Booking record: an event reference and an email address. -/
structure Booking where
  eventId : String
  email : String
deriving DecidableEq, Repr

/-- `bookingPreSave` from `booking.model.ts`: test the email against
`EMAIL_REGEX` first, then query the store (modelled as the list of
existing event ids) for the referenced event, failing when it is absent;
only then may the write proceed. -/
def bookingPreSave (eventIds : List String) (b : Booking) : Except SaveError Booking :=
  if !emailMatch b.email.data then .error .invalidEmail
  else if eventIds.contains b.eventId then .ok b
  else .error .danglingReference

/-! ## Claim about the Booking Record Validator -/

/-- C6: the Booking Record Validator fails with `InvalidEmail` on every
email the syntactic pattern rejects — e.g. `"not-an-email"` — whatever the
store contains (so the email check decides before the store query is
consulted); and with a well-formed email and an `eventId` that resolves to
no existing event it fails with `DanglingReference`. -/
theorem claim_C6 :
    (∀ (eventIds : List String) (b : Booking), emailMatch b.email.data = false →
      bookingPreSave eventIds b = .error .invalidEmail) ∧
    emailMatch "not-an-email".data = false ∧
    (∀ (eventIds : List String) (b : Booking), emailMatch b.email.data = true →
      eventIds.contains b.eventId = false →
      bookingPreSave eventIds b = .error .danglingReference) := by
  refine ⟨?_, rfl, ?_⟩
  · intro ids b h
    simp [bookingPreSave, h]
  · intro ids b h1 h2
    simp [bookingPreSave, h1, h2]
    simpa using h2

/-- C6 (witness): `"not-an-email"` is rejected with `InvalidEmail` even on
an empty store, and a well-formed email referencing a missing event is
rejected with `DanglingReference`. -/
theorem claim_C6_witness :
    bookingPreSave [] { eventId := "e1", email := "not-an-email" } = .error .invalidEmail ∧
    bookingPreSave ["e2"] { eventId := "e1", email := "a@b.co" } = .error .danglingReference :=
  ⟨claim_C6.1 [] { eventId := "e1", email := "not-an-email" } rfl,
   claim_C6.2.2 ["e2"] { eventId := "e1", email := "a@b.co" } rfl rfl⟩

/-! ## Write path -/

/-- Modelled from the spec: the `createEvent` operation.  The HTTP-facing
write path is not among the modelled sources, so its contract is taken
from spec sections 4.4, 6 and 7: run the pre-save validation; a thrown
validation error aborts the write and leaves the Record Store unchanged;
otherwise the store, which enforces slug uniqueness at write time
(`DuplicateSlug`), persists the validated record. -/
def createEvent (store : List EventDoc) (doc : EventDoc) (tm : Bool) :
    Except SaveError EventDoc × List EventDoc :=
  match eventPreSave doc tm with
  | .error e => (.error e, store)
  | .ok doc' =>
    if store.any (fun r => r.slug == doc'.slug) then (.error .duplicateSlug, store)
    else (.ok doc', store ++ [doc'])

/-- Modelled from the spec: the `createBooking` operation — validate, then
persist. -/
def createBooking (eventIds : List String) (store : List Booking) (b : Booking) :
    Except SaveError Booking × List Booking :=
  match bookingPreSave eventIds b with
  | .error e => (.error e, store)
  | .ok b' => (.ok b', store ++ [b'])

/-- C9: whenever `createEvent` or `createBooking` raises a validation
error (`MissingField`, `InvalidDate`, `InvalidTime`, `InvalidEmail`,
`DanglingReference` — every error other than the store-raised
`DuplicateSlug`), the Record Store is unchanged; and the event store only
ever grows by a record that passed validation, so no invalid record is
persisted. -/
theorem claim_C9 :
    (∀ (store : List EventDoc) (doc : EventDoc) (tm : Bool) (e : SaveError),
      (createEvent store doc tm).1 = .error e → e ≠ .duplicateSlug →
      (createEvent store doc tm).2 = store) ∧
    (∀ (eventIds : List String) (store : List Booking) (b : Booking) (e : SaveError),
      (createBooking eventIds store b).1 = .error e →
      (createBooking eventIds store b).2 = store) ∧
    (∀ (store : List EventDoc) (doc : EventDoc) (tm : Bool),
      (createEvent store doc tm).2 = store ∨
      ∃ doc', eventPreSave doc tm = .ok doc' ∧
        (createEvent store doc tm).2 = store ++ [doc']) := by
  refine ⟨?_, ?_, ?_⟩
  · intro store doc tm e h1 _
    cases hp : eventPreSave doc tm with
    | error e' => simp [createEvent, hp]
    | ok doc' =>
      by_cases hdup : store.any (fun r => r.slug == doc'.slug) = true
      · simp [createEvent, hp, hdup]
      · rw [Bool.not_eq_true] at hdup
        simp [createEvent, hp, hdup] at h1
  · intro ids store b e h
    cases hp : bookingPreSave ids b with
    | error e' => simp [createBooking, hp]
    | ok b' => simp [createBooking, hp] at h
  · intro store doc tm
    cases hp : eventPreSave doc tm with
    | error e' => exact Or.inl (by simp [createEvent, hp])
    | ok doc' =>
      by_cases hdup : store.any (fun r => r.slug == doc'.slug) = true
      · exact Or.inl (by simp [createEvent, hp, hdup])
      · rw [Bool.not_eq_true] at hdup
        exact Or.inr ⟨doc', rfl, by simp [createEvent, hp, hdup]⟩

/-- C9 (witness): a booking with an invalid email leaves the empty store
empty. -/
theorem claim_C9_witness :
    (createBooking [] [] { eventId := "e1", email := "not-an-email" }).2 = [] :=
  claim_C9.2.1 [] [] { eventId := "e1", email := "not-an-email" } .invalidEmail rfl
